import Mathlib

/-!
Shallow embedding of the ACM secure-voting core: the election state machine,
ballot/vote ledger (`src/services/voting.js`), credential verification
(`src/services/auth.js`) and the keyed record store operations they use
(`src/services/fileDb.js`).  Records are modelled as Lean structures, the
JSON collections as lists, JS objects used as string-keyed maps as
association lists (first-match lookup, like JS property access), and
`Date.now()` as an explicit `now : Nat` argument.  JS truthiness on stored
timestamps (`status.startTime || null` treats `0` like `null`) is embedded
in the load-time normalisation `loadNorm`, mirroring `loadElectionStatus`.
-/

namespace Acm

/-- `24 * 60 * 60 * 1000` ms, the default election duration. -/
def defaultDuration : Nat := 24 * 60 * 60 * 1000

/-- The singleton election-status record (`electionStatus` collection). -/
structure ElectionStatus where
  isActive : Bool
  startTime : Option Nat
  endTime : Option Nat
  duration : Nat
deriving Repr, DecidableEq

/-- `defaultElectionStatus` from voting.js. -/
def defaultElectionStatus : ElectionStatus :=
  { isActive := false, startTime := none, endTime := none, duration := defaultDuration }

/-- `loadElectionStatus`: field normalisation applied on every read
(`status.isActive || false`, `status.startTime || null`,
`status.endTime || null`, `status.duration || 24*60*60*1000`); a stored
`0` timestamp is falsy in JS and loads as `null`. -/
def loadNorm (s : ElectionStatus) : ElectionStatus :=
  { isActive := s.isActive
    startTime := match s.startTime with | some 0 => none | x => x
    endTime := match s.endTime with | some 0 => none | x => x
    duration := if s.duration = 0 then defaultDuration else s.duration }

/-- A position record (fields used by the voting service). -/
structure Position where
  id : String
  name : String
  isActive : Bool
deriving Repr, DecidableEq

/-- A candidate record (fields used by the voting service). -/
structure Candidate where
  id : String
  name : String
  positionId : String
  isActive : Bool
deriving Repr, DecidableEq

/-- A vote record `{id, memberId, timestamp, votes}`; the `votes` object
(position id → candidate id) is an association list. -/
structure Vote where
  id : String
  memberId : String
  timestamp : Nat
  votes : List (String × String)
deriving Repr, DecidableEq

/-- The persisted collections the voting service touches. -/
structure VotingState where
  status : ElectionStatus
  positions : List Position
  candidates : List Candidate
  votes : List Vote
deriving Repr, DecidableEq

/-- JS object property lookup on a `votes` map: first binding for the key. -/
def lookupChoice (choices : List (String × String)) (pid : String) : Option String :=
  (choices.find? (fun pc => pc.1 = pid)).map (fun pc => pc.2)

/-- `fileDb.findBy('votes', 'memberId', memberId)`: first matching record. -/
def findVoteByMember (votes : List Vote) (memberId : String) : Option Vote :=
  votes.find? (fun v => v.memberId = memberId)

/-- Outcome of `submitVote`, one constructor per return branch. -/
inductive SubmitResult where
  | electionNotActive
  | alreadyVoted (voteId : String)
  | invalidPosition (positionId : String)
  | invalidCandidate (positionId : String)
  | success (voteId : String)
deriving Repr, DecidableEq

/-- The vote id `vote_${now}_${helpers.generateRandomCode(8)}`; the random
suffix is passed in as `rand`. -/
def mkVoteId (now : Nat) (rand : String) : String :=
  "vote_" ++ toString now ++ "_" ++ rand

/-- `submitVote(memberId, votes)` from voting.js (file-backed variant):
re-reads the election status, rejects when not active, rejects a second
vote by the same member (returning the existing vote id), validates every
chosen position against the active positions and every chosen candidate
against the active candidates of that position, then appends the new vote
record.  Validation loops return on the first offending entry, in the
insertion order of the `choices` object. -/
def submitVote (st : VotingState) (memberId : String)
    (choices : List (String × String)) (now : Nat) (rand : String) :
    SubmitResult × VotingState :=
  let electionStatus := loadNorm st.status
  if !electionStatus.isActive then
    (.electionNotActive, st)
  else
    match findVoteByMember st.votes memberId with
    | some existingVote => (.alreadyVoted existingVote.id, st)
    | none =>
      let activePositionIds := (st.positions.filter (fun p => p.isActive)).map (fun p => p.id)
      match choices.find? (fun pc => !(activePositionIds.contains pc.1)) with
      | some pc => (.invalidPosition pc.1, st)
      | none =>
        match choices.find? (fun pc =>
            (st.candidates.find? (fun c =>
              c.id = pc.2 && c.positionId = pc.1 && c.isActive)).isNone) with
        | some pc => (.invalidCandidate pc.1, st)
        | none =>
          let voteId := mkVoteId now rand
          let voteRecord : Vote :=
            { id := voteId, memberId := memberId, timestamp := now, votes := choices }
          (.success voteId, { st with votes := st.votes ++ [voteRecord] })

/-- Per-candidate entry of the `getResults` output. -/
structure CandidateResult where
  id : String
  name : String
  votes : Nat
  isWinner : Bool
deriving Repr, DecidableEq

/-- Per-position entry of the `getResults` output (candidate entries in
object insertion order). -/
structure PositionResult where
  id : String
  name : String
  candidates : List CandidateResult
deriving Repr, DecidableEq

/-- The tally `getResults` computes for the candidate entry `candId` of
position `posId`: each vote whose choice for the position is a truthy key
of the candidate map increments that entry, so the entry for `candId`
counts the votes choosing exactly `candId` (an empty-string id is falsy
and never counted). -/
def tallyFor (votes : List Vote) (posId candId : String) : Nat :=
  if candId = "" then 0
  else (votes.filter (fun v => lookupChoice v.votes posId = some candId)).length

/-- One step of the winner scan in `getResults`: running maximum and the
accumulated winner ids (`votes > max` resets, `votes === max && max > 0`
appends). -/
def winnerScanStep (acc : Nat × List String) (c : CandidateResult) : Nat × List String :=
  if acc.1 < c.votes then (c.votes, [c.id])
  else if c.votes = acc.1 ∧ 0 < acc.1 then (acc.1, acc.2 ++ [c.id])
  else acc

/-- The winner scan of `getResults`: fold over the candidate entries in
order, starting from `maxVotes = 0`, `winnerIds = []`. -/
def winnerScan (cands : List CandidateResult) : Nat × List String :=
  cands.foldl winnerScanStep (0, [])

/-- Marking pass of `getResults`: set `isWinner` on every entry whose id
was collected by the winner scan. -/
def markWinners (cands : List CandidateResult) : List CandidateResult :=
  let winnerIds := (winnerScan cands).2
  cands.map (fun c => if winnerIds.contains c.id then { c with isWinner := true } else c)

/-- `getResults` from voting.js (file-backed variant): for each active
position, a zero-initialised tally per active candidate of that position,
incremented by the vote scan; winners are determined only when the loaded
status is inactive with an end time set. -/
def getResults (st : VotingState) : List PositionResult :=
  let electionStatus := loadNorm st.status
  (st.positions.filter (fun p => p.isActive)).map (fun p =>
    let positionCandidates := st.candidates.filter
      (fun c => c.positionId = p.id && c.isActive)
    let counted : List CandidateResult := positionCandidates.map (fun c =>
      { id := c.id, name := c.name, votes := tallyFor st.votes p.id c.id, isWinner := false })
    let final :=
      if !electionStatus.isActive && electionStatus.endTime.isSome then
        markWinners counted
      else counted
    { id := p.id, name := p.name, candidates := final })

/-- What a `status()` read returns: the (normalised) flags plus the
formatted time remaining, modelled as `some (hours, minutes)` for the
string `"${h}h ${m}m"` and `none` for `null`. -/
structure StatusReport where
  isActive : Bool
  startTime : Option Nat
  endTime : Option Nat
  timeRemaining : Option (Nat × Nat)
deriving Repr, DecidableEq

/-- `getElectionStatus` from voting.js (file-backed variant): loads the
status; when it is active with a truthy start time and the duration has
elapsed (`remaining <= 0`) it persists the auto-closed status and reports
`0h 0m`; when active with time left it reports the floor-divided hours and
minutes without writing; otherwise it reports the loaded fields with a
`null` time remaining.  The second component is the persisted status after
the call (`saveElectionStatus` replaces the singleton record). -/
def getElectionStatus (s : ElectionStatus) (now : Nat) : StatusReport × ElectionStatus :=
  let electionStatus := loadNorm s
  match electionStatus.startTime with
  | some startTime =>
    if electionStatus.isActive then
      let endTime := startTime + electionStatus.duration
      if endTime ≤ now then
        let newStatus := { electionStatus with isActive := false, endTime := some now }
        ({ isActive := false, startTime := some startTime, endTime := some now,
           timeRemaining := some (0, 0) }, newStatus)
      else
        let remaining := endTime - now
        ({ isActive := electionStatus.isActive, startTime := electionStatus.startTime,
           endTime := electionStatus.endTime,
           timeRemaining := some (remaining / (60 * 60 * 1000),
                                  (remaining % (60 * 60 * 1000)) / (60 * 1000)) }, s)
    else
      ({ isActive := electionStatus.isActive, startTime := electionStatus.startTime,
         endTime := electionStatus.endTime, timeRemaining := none }, s)
  | none =>
    ({ isActive := electionStatus.isActive, startTime := electionStatus.startTime,
       endTime := electionStatus.endTime, timeRemaining := none }, s)

/-- Outcome of `startElection` / `endElection`. -/
inductive TransitionResult where
  | alreadyActive
  | notActive
  | ok (newStatus : ElectionStatus)
deriving Repr, DecidableEq

/-- `startElection(duration)` from voting.js, file-backed variant: rejects
only when the loaded status is active; otherwise persists
`{isActive: true, startTime: now, endTime: null, duration: electionStatus.duration || 24h}`.
The `duration` argument is accepted but never read — the new record keeps
the previously stored duration. -/
def startElection (s : ElectionStatus) (duration : Option Nat) (now : Nat) :
    TransitionResult × ElectionStatus :=
  let electionStatus := loadNorm s
  if electionStatus.isActive then (.alreadyActive, s)
  else
    let newStatus : ElectionStatus :=
      { isActive := true, startTime := some now, endTime := none
        duration := if electionStatus.duration = 0 then defaultDuration
                    else electionStatus.duration }
    (.ok newStatus, newStatus)

/-- `startElection(duration)` from voting.js, in-memory variant: rejects
when the module-level status is active; otherwise replaces it with
`{isActive: true, startTime: now, endTime: null, duration: duration || 24h}`
(a missing or zero argument falls back to the 24-hour literal). -/
def startElectionMem (s : ElectionStatus) (duration : Option Nat) (now : Nat) :
    TransitionResult × ElectionStatus :=
  if s.isActive then (.alreadyActive, s)
  else
    let newStatus : ElectionStatus :=
      { isActive := true, startTime := some now, endTime := none
        duration := match duration with
                    | some d => if d = 0 then defaultDuration else d
                    | none => defaultDuration }
    (.ok newStatus, newStatus)

/-- `endElection()` from voting.js (file-backed variant): rejects when the
loaded status is not active; otherwise persists the loaded status with
`isActive := false`, `endTime := now`. -/
def endElection (s : ElectionStatus) (now : Nat) : TransitionResult × ElectionStatus :=
  let electionStatus := loadNorm s
  if !electionStatus.isActive then (.notActive, s)
  else
    let newStatus := { electionStatus with isActive := false, endTime := some now }
    (.ok newStatus, newStatus)

/-- Outcome of the `POST /api/voting/submit` route handler. -/
inductive RouteSubmitResult where
  | electionNotActive
  | noVotes
  | service (r : SubmitResult)
deriving Repr, DecidableEq

/-- The `router.post('/submit')` handler in `src/routes/voting.js`: first
reads `getElectionStatus()` (which lazily auto-closes an elapsed election
and persists that), answers 403 when the reported status is not active,
400 when the votes object is empty, and otherwise delegates to the service
`submitVote`, which re-reads the (possibly just auto-closed) status. -/
def submitRoute (st : VotingState) (memberId : String)
    (choices : List (String × String)) (now : Nat) (rand : String) :
    RouteSubmitResult × VotingState :=
  let (statusReport, s) := getElectionStatus st.status now
  let st := { st with status := s }
  if !statusReport.isActive then (.electionNotActive, st)
  else if choices.isEmpty then (.noVotes, st)
  else
    let (r, st') := submitVote st memberId choices now rand
    (.service r, st')

/-- One service-layer operation on the voting state, for stating
invariants over arbitrary operation sequences. -/
inductive Op where
  | submit (memberId : String) (choices : List (String × String)) (now : Nat) (rand : String)
  | start (duration : Option Nat) (now : Nat)
  | stop (now : Nat)
  | statusRead (now : Nat)
  | resultsRead
deriving Repr

/-- The state reached after one operation (results reads are pure). -/
def stepOp (st : VotingState) (op : Op) : VotingState :=
  match op with
  | .submit m choices now rand => (submitVote st m choices now rand).2
  | .start d now => { st with status := (startElection st.status d now).2 }
  | .stop now => { st with status := (endElection st.status now).2 }
  | .statusRead now => { st with status := (getElectionStatus st.status now).2 }
  | .resultsRead => st

/-- The state reached after a sequence of operations. -/
def runOps (st : VotingState) (ops : List Op) : VotingState :=
  ops.foldl stepOp st

/-- The central invariant: at most one vote record per member identifier. -/
def AtMostOneVotePerMember (votes : List Vote) : Prop :=
  ∀ m : String, (votes.filter (fun v => v.memberId = m)).length ≤ 1

/-- A member record (fields used by the auth service). -/
structure Member where
  id : String
  name : String
  phoneNumber : String
deriving Repr, DecidableEq

/-- The in-memory `activeOTPs` entry for one phone number. -/
structure OtpData where
  otp : String
  expiryTime : Nat
  memberId : String
  attempts : Nat
deriving Repr, DecidableEq

/-- A session record as created by `verifyOTP` (member-relevant fields). -/
structure Session where
  id : String
  memberId : String
  createdAt : Nat
  expiresAt : Nat
deriving Repr, DecidableEq

/-- Outcome of `verifyOTP`, one constructor per return branch. -/
inductive VerifyResult where
  | noActiveChallenge
  | challengeExpired
  | tooManyAttempts
  | codeMismatch
  | memberNotFound
  | success (sessionToken : String) (hasVoted : Bool) (voteId : Option String)
deriving Repr, DecidableEq

/-- `verifyOTP(phoneNumber, otp)` from auth.js, projected to the
`activeOTPs` entry of that one phone number (`Map.get`/`set`/`delete` act
per key): no entry — no active challenge; past expiry — evict and fail;
then the attempt counter is incremented and, once it reaches 5, the entry
is evicted and the call fails regardless of the code; a wrong code leaves
the incremented entry in place; a match evicts the entry, resolves the
member, creates a session of `sessionDur` and reports whether the member
already voted.  Returns the result and the entry left in the map. -/
def verifyOTP (members : List Member) (votes : List Vote)
    (entry : Option OtpData) (otp : String) (now : Nat)
    (token : String) (sessionDur : Nat) :
    VerifyResult × Option OtpData × Option Session :=
  match entry with
  | none => (.noActiveChallenge, none, none)
  | some otpData =>
    if otpData.expiryTime < now then (.challengeExpired, none, none)
    else
      let otpData := { otpData with attempts := otpData.attempts + 1 }
      if 5 ≤ otpData.attempts then (.tooManyAttempts, none, none)
      else if otpData.otp ≠ otp then (.codeMismatch, some otpData, none)
      else
        match members.find? (fun m => m.id = otpData.memberId) with
        | none => (.memberNotFound, some otpData, none)
        | some member =>
          let sessionRecord : Session :=
            { id := token, memberId := member.id, createdAt := now
              expiresAt := now + sessionDur }
          let vote := findVoteByMember votes member.id
          (.success token vote.isSome (vote.map (fun v => v.id)), none, some sessionRecord)

/-- First-occurrence removal used by `fileDb.remove` (`findIndex` then
`splice`). -/
def removeFirstSession (sessions : List Session) (token : String) : List Session :=
  match sessions with
  | [] => []
  | s :: rest => if s.id = token then rest else s :: removeFirstSession rest token

/-- `fileDb.remove('sessions', 'id', token)`: `false` and no change when no
record matches, otherwise removes the first match and returns `true`. -/
def removeSession (sessions : List Session) (token : String) : Bool × List Session :=
  if sessions.any (fun s => s.id = token) then (true, removeFirstSession sessions token)
  else (false, sessions)

/-- `endSession(sessionToken)` from auth.js: a missing or empty token is
falsy and returns `false` without touching the store; otherwise the result
of `fileDb.remove` is returned as-is. -/
def endSession (sessions : List Session) (token : Option String) : Bool × List Session :=
  match token with
  | none => (false, sessions)
  | some t => if t = "" then (false, sessions) else removeSession sessions t

/-! ## Helper lemmas about `submitVote` -/

/-- Every branch of `submitVote` either leaves the state unchanged or, when
no vote by the member exists, appends exactly one new vote record. -/
lemma submitVote_state_cases (st : VotingState) (m : String)
    (choices : List (String × String)) (now : Nat) (rand : String) :
    (submitVote st m choices now rand).2 = st ∨
    (findVoteByMember st.votes m = none ∧
      (submitVote st m choices now rand).2 =
        { st with votes := st.votes ++
            [{ id := mkVoteId now rand, memberId := m, timestamp := now, votes := choices }] }) := by
  simp only [submitVote]
  split
  · exact Or.inl rfl
  · split
    · exact Or.inl rfl
    · next hfind =>
      split
      · exact Or.inl rfl
      · split
        · exact Or.inl rfl
        · exact Or.inr ⟨hfind, rfl⟩

/-- While the election is active, a member with an existing vote record is
rejected with `alreadyVoted` carrying that record's id, and the state is
untouched. -/
lemma submitVote_alreadyVoted (st : VotingState) (m : String)
    (choices : List (String × String)) (now : Nat) (rand : String) (v : Vote)
    (hA : (loadNorm st.status).isActive = true)
    (hv : findVoteByMember st.votes m = some v) :
    submitVote st m choices now rand = (.alreadyVoted v.id, st) := by
  simp only [submitVote, hA, hv, Bool.not_true, Bool.false_eq_true, if_false]

/-- Appending a vote by a member with no existing record preserves the
at-most-one-vote invariant. -/
lemma atMostOne_append (votes : List Vote) (nv : Vote)
    (h : AtMostOneVotePerMember votes)
    (hn : findVoteByMember votes nv.memberId = none) :
    AtMostOneVotePerMember (votes ++ [nv]) := by
  intro m
  rw [List.filter_append, List.length_append]
  by_cases hm : nv.memberId = m
  · have hnil : votes.filter (fun v => v.memberId = m) = [] := by
      rw [List.filter_eq_nil_iff]
      intro v hv
      have hne := List.find?_eq_none.mp hn v hv
      simp only [decide_eq_true_eq] at hne ⊢
      exact fun h' => hne (hm ▸ h')
    have hone : ([nv].filter (fun v => v.memberId = m)).length ≤ 1 := by
      simpa using List.length_filter_le (fun v => decide (v.memberId = m)) [nv]
    simpa [hnil] using hone
  · have hnil : [nv].filter (fun v => v.memberId = m) = [] := by
      simp [List.filter_eq_nil_iff, hm]
    simpa [hnil] using h m

/-- One service operation preserves the at-most-one-vote invariant. -/
lemma stepOp_preserves_atMostOne (st : VotingState) (op : Op)
    (h : AtMostOneVotePerMember st.votes) :
    AtMostOneVotePerMember (stepOp st op).votes := by
  cases op with
  | submit m choices now rand =>
    rcases submitVote_state_cases st m choices now rand with hsame | ⟨hnone, happ⟩
    · simpa [stepOp, hsame] using h
    · rw [stepOp, happ]
      exact atMostOne_append st.votes _ h hnone
  | start d now => simpa [stepOp] using h
  | stop now => simpa [stepOp] using h
  | statusRead now => simpa [stepOp] using h
  | resultsRead => simpa [stepOp] using h

/-- C1: At-most-one-vote invariant — during an active election,
`submitVote` for a member who already has a vote record fails with
`alreadyVoted` carrying the existing vote id and changes nothing, and
every sequence of service operations preserves the invariant that at most
one vote record exists per member identifier. -/
theorem at_most_one_vote_invariant :
    (∀ (st : VotingState) (m : String) (choices : List (String × String))
        (now : Nat) (rand : String) (v : Vote),
      (loadNorm st.status).isActive = true →
      findVoteByMember st.votes m = some v →
      submitVote st m choices now rand = (.alreadyVoted v.id, st)) ∧
    (∀ (st : VotingState) (ops : List Op),
      AtMostOneVotePerMember st.votes → AtMostOneVotePerMember (runOps st ops).votes) := by
  constructor
  · exact fun st m choices now rand v hA hv => submitVote_alreadyVoted st m choices now rand v hA hv
  · intro st ops h
    induction ops generalizing st with
    | nil => exact h
    | cons op rest ih =>
      rw [runOps, List.foldl_cons]
      exact ih (stepOp st op) (stepOp_preserves_atMostOne st op h)

/-- Closed witness for `at_most_one_vote_invariant` at concrete inputs. -/
theorem at_most_one_vote_invariant_witness :
    submitVote
        { status := { isActive := true, startTime := some 1, endTime := none, duration := 1000 },
          positions := [], candidates := [],
          votes := [{ id := "v1", memberId := "m1", timestamp := 0, votes := [] }] }
        "m1" [] 5 "r"
      = (.alreadyVoted "v1",
        { status := { isActive := true, startTime := some 1, endTime := none, duration := 1000 },
          positions := [], candidates := [],
          votes := [{ id := "v1", memberId := "m1", timestamp := 0, votes := [] }] }) ∧
    AtMostOneVotePerMember
      (runOps { status := defaultElectionStatus, positions := [], candidates := [], votes := [] }
        [Op.submit "m1" [] 5 "r"]).votes := by
  refine ⟨?_, ?_⟩
  · exact at_most_one_vote_invariant.1 _ "m1" [] 5 "r"
      { id := "v1", memberId := "m1", timestamp := 0, votes := [] } rfl rfl
  · exact at_most_one_vote_invariant.2 _ _ (by intro m; simp [AtMostOneVotePerMember])

/-! ## `startElection` gating and duration handling -/

/-- The normalised duration is never zero (a zero stored duration loads as
the 24-hour default). -/
lemma loadNorm_duration_ne_zero (s : ElectionStatus) : (loadNorm s).duration ≠ 0 := by
  by_cases h : s.duration = 0
  · simp [loadNorm, h, defaultDuration]
  · simp [loadNorm, h]

/-- C4 counterexample: on an ended election (`isActive = false`, `endTime`
set), `startElection` is not rejected — it succeeds and re-activates the
election, clearing `endTime`.  The service layer never checks `endTime`. -/
theorem start_reopens_ended_election_cex :
    (startElection
        { isActive := false, startTime := some 100, endTime := some 200, duration := 1000 }
        none 300).1
      = TransitionResult.ok
          { isActive := true, startTime := some 300, endTime := none, duration := 1000 } ∧
    (startElection
        { isActive := false, startTime := some 100, endTime := some 200, duration := 1000 }
        none 300).2.isActive = true ∧
    (startElection
        { isActive := false, startTime := some 100, endTime := some 200, duration := 1000 }
        none 300).2.endTime = none := by
  decide

/-- C4 (amended): the file-backed `startElection` rejects with
`alreadyActive` exactly when the loaded status is active; whenever it is
inactive — even with `endTime` already set — it succeeds, re-activating
the election with a fresh start time and a cleared end time. -/
theorem startElection_rejects_only_active (s : ElectionStatus) (d : Option Nat) (now : Nat) :
    ((loadNorm s).isActive = true → startElection s d now = (.alreadyActive, s)) ∧
    ((loadNorm s).isActive = false →
      (startElection s d now).1 = .ok (startElection s d now).2 ∧
      (startElection s d now).2.isActive = true ∧
      (startElection s d now).2.startTime = some now ∧
      (startElection s d now).2.endTime = none) := by
  constructor
  · intro h
    simp [startElection, h]
  · intro h
    simp [startElection, h]

/-- Closed witness for `startElection_rejects_only_active`. -/
theorem startElection_rejects_only_active_witness :
    startElection { isActive := true, startTime := some 1, endTime := none, duration := 5 } none 9
      = (.alreadyActive,
         { isActive := true, startTime := some 1, endTime := none, duration := 5 }) ∧
    (startElection
        { isActive := false, startTime := some 100, endTime := some 200, duration := 1000 }
        none 300).2.isActive = true := by
  refine ⟨?_, ?_⟩
  · exact (startElection_rejects_only_active
      { isActive := true, startTime := some 1, endTime := none, duration := 5 } none 9).1 rfl
  · exact ((startElection_rejects_only_active
      { isActive := false, startTime := some 100, endTime := some 200, duration := 1000 }
      none 300).2 rfl).2.1

/-- C5 counterexample: the file-backed `startElection` called with an
explicit duration argument of `1000` on a non-active election keeps the
previously stored 24-hour duration — the argument is ignored. -/
theorem start_ignores_duration_argument_cex :
    (startElection
        { isActive := false, startTime := none, endTime := none, duration := 24 * 60 * 60 * 1000 }
        (some 1000) 500).2.duration = 24 * 60 * 60 * 1000 ∧
    (24 * 60 * 60 * 1000 : Nat) ≠ 1000 := by
  decide

/-- C5 (amended): both `startElection` variants fail with `alreadyActive`
on an active election and otherwise set `isActive := true`,
`startTime := now`, `endTime := null`; the file-backed variant ignores the
duration argument and keeps the previously stored duration (itself
defaulted to 24 hours on load), while the in-memory variant stores the
given duration, falling back to the 24-hour literal when none is given. -/
theorem startElection_duration_semantics (s : ElectionStatus) (d : Nat)
    (dOpt : Option Nat) (now : Nat) :
    ((loadNorm s).isActive = true → startElection s (some d) now = (.alreadyActive, s)) ∧
    ((loadNorm s).isActive = false →
      (startElection s (some d) now).2 =
        { isActive := true, startTime := some now, endTime := none,
          duration := (loadNorm s).duration }) ∧
    (s.isActive = true → startElectionMem s dOpt now = (.alreadyActive, s)) ∧
    (s.isActive = false → 0 < d →
      (startElectionMem s (some d) now).2 =
        { isActive := true, startTime := some now, endTime := none, duration := d }) ∧
    (s.isActive = false →
      (startElectionMem s none now).2 =
        { isActive := true, startTime := some now, endTime := none,
          duration := defaultDuration }) := by
  refine ⟨?_, ?_, ?_, ?_, ?_⟩
  · intro h
    simp [startElection, h]
  · intro h
    simp [startElection, h, if_neg (loadNorm_duration_ne_zero s)]
  · intro h
    simp [startElectionMem, h]
  · intro h hd
    have : d ≠ 0 := by omega
    simp [startElectionMem, h, this]
  · intro h
    simp [startElectionMem, h]

/-- Closed witness for `startElection_duration_semantics`. -/
theorem startElection_duration_semantics_witness :
    (startElection { isActive := false, startTime := none, endTime := none, duration := 7777 }
        (some 1000) 500).2
      = { isActive := true, startTime := some 500, endTime := none, duration := 7777 } ∧
    (startElectionMem { isActive := false, startTime := none, endTime := none, duration := 7777 }
        (some 1000) 500).2
      = { isActive := true, startTime := some 500, endTime := none, duration := 1000 } := by
  refine ⟨?_, ?_⟩
  · have h := (startElection_duration_semantics
      { isActive := false, startTime := none, endTime := none, duration := 7777 }
      1000 none 500).2.1 rfl
    simpa [loadNorm] using h
  · exact (startElection_duration_semantics
      { isActive := false, startTime := none, endTime := none, duration := 7777 }
      1000 (some 1000) 500).2.2.2.1 rfl (by decide)

/-! ## OTP attempt exhaustion -/

/-- C6 counterexample: with a pending code `"1234"`, five wrong-code calls
all fail — the fifth already with `tooManyAttempts`, evicting the entry —
so the sixth call, even with the correct code, fails with
`noActiveChallenge`, not `tooManyAttempts`. -/
theorem verifyOTP_sixth_call_cex :
    let call := fun (e : Option OtpData) (code : String) => verifyOTP [] [] e code 1 "tok" 50
    let r1 := call (some { otp := "1234", expiryTime := 10000, memberId := "m1", attempts := 0 }) "0"
    let r2 := call r1.2.1 "0"
    let r3 := call r2.2.1 "0"
    let r4 := call r3.2.1 "0"
    let r5 := call r4.2.1 "0"
    let r6 := call r5.2.1 "1234"
    r1.1 = .codeMismatch ∧ r2.1 = .codeMismatch ∧ r3.1 = .codeMismatch ∧
    r4.1 = .codeMismatch ∧ r5.1 = .tooManyAttempts ∧ r5.2.1 = none ∧
    r6.1 = .noActiveChallenge ∧ r6.1 ≠ .tooManyAttempts := by
  decide

/-- C6 (amended): once the stored attempt counter has reached 4, the next
(fifth) `verifyOTP` call on an unexpired entry increments it to 5 and
fails with `tooManyAttempts` regardless of the submitted code, evicting
the entry; every call after the eviction fails with `noActiveChallenge`. -/
theorem verifyOTP_attempt_exhaustion (members : List Member) (votes : List Vote)
    (d : OtpData) (otp code : String) (now : Nat) (token : String) (sdur : Nat) :
    (now ≤ d.expiryTime → 4 ≤ d.attempts →
      verifyOTP members votes (some d) otp now token sdur = (.tooManyAttempts, none, none)) ∧
    verifyOTP members votes none code now token sdur = (.noActiveChallenge, none, none) := by
  constructor
  · intro hexp hatt
    simp only [verifyOTP]
    rw [if_neg (by omega), if_pos (by omega)]
  · rfl

/-- Closed witness for `verifyOTP_attempt_exhaustion`: the fifth call with
the correct code still fails. -/
theorem verifyOTP_attempt_exhaustion_witness :
    verifyOTP [] [] (some { otp := "9", expiryTime := 100, memberId := "m", attempts := 4 })
        "9" 50 "t" 10
      = (.tooManyAttempts, none, none) :=
  (verifyOTP_attempt_exhaustion [] []
    { otp := "9", expiryTime := 100, memberId := "m", attempts := 4 }
    "9" "x" 50 "t" 10).1 (by decide) (by decide)

/-! ## `endSession` -/

/-- Under distinct session ids, removing the first match leaves no session
with that id. -/
lemma removeFirstSession_any_eq_false (sessions : List Session) (t : String)
    (hnd : (sessions.map (fun s => s.id)).Nodup) :
    (removeFirstSession sessions t).any (fun s => s.id = t) = false := by
  induction sessions with
  | nil => rfl
  | cons s rest ih =>
    rw [List.map_cons, List.nodup_cons] at hnd
    obtain ⟨hnotin, hnd'⟩ := hnd
    simp only [removeFirstSession]
    by_cases h : s.id = t
    · rw [if_pos h, List.any_eq_false]
      intro x hx
      simp only [decide_eq_true_eq]
      intro hxt
      exact hnotin (List.mem_map.mpr ⟨x, hx, by rw [hxt, h]⟩)
    · rw [if_neg h, List.any_cons, ih hnd']
      simp [h]

/-- C8 counterexample: `endSession` reports failure, not success, both for
a token absent from the session store and for a missing token. -/
theorem endSession_reports_failure_cex :
    endSession [] (some "tok") = (false, []) ∧
    endSession [{ id := "a", memberId := "m", createdAt := 0, expiresAt := 10 }] none
      = (false, [{ id := "a", memberId := "m", createdAt := 0, expiresAt := 10 }]) := by
  constructor <;> rfl

/-- C8 (amended): `endSession` returns `false` and leaves the store
untouched for a missing, empty, or unknown token, and returns `true` after
removing the first session with the given id when one exists (under
distinct ids, no session with that id remains); the surrounding logout
route, not `endSession`, is what always reports success. -/
theorem endSession_semantics (sessions : List Session) (t : String) :
    endSession sessions none = (false, sessions) ∧
    endSession sessions (some "") = (false, sessions) ∧
    (sessions.any (fun s => s.id = t) = false →
      endSession sessions (some t) = (false, sessions)) ∧
    (t ≠ "" → sessions.any (fun s => s.id = t) = true →
      endSession sessions (some t) = (true, removeFirstSession sessions t)) ∧
    (t ≠ "" → (sessions.map (fun s => s.id)).Nodup →
      ((endSession sessions (some t)).2.any (fun s => s.id = t)) = false) := by
  refine ⟨rfl, rfl, ?_, ?_, ?_⟩
  · intro h
    by_cases ht : t = ""
    · simp [endSession, ht]
    · simp [endSession, ht, removeSession, h]
  · intro ht h
    simp [endSession, ht, removeSession, h]
  · intro ht hnd
    by_cases h : sessions.any (fun s => s.id = t) = true
    · simp only [endSession, if_neg ht, removeSession, h, if_pos]
      exact removeFirstSession_any_eq_false sessions t hnd
    · simp only [endSession, if_neg ht, removeSession]
      rw [if_neg h]
      simpa using h

/-- Closed witness for `endSession_semantics`. -/
theorem endSession_semantics_witness :
    endSession [{ id := "a", memberId := "m", createdAt := 0, expiresAt := 10 }] (some "a")
      = (true, []) ∧
    endSession [{ id := "a", memberId := "m", createdAt := 0, expiresAt := 10 }] (some "b")
      = (false, [{ id := "a", memberId := "m", createdAt := 0, expiresAt := 10 }]) := by
  refine ⟨?_, ?_⟩
  · exact (endSession_semantics
      [{ id := "a", memberId := "m", createdAt := 0, expiresAt := 10 }] "a").2.2.2.1
      (by decide) (by decide)
  · exact (endSession_semantics
      [{ id := "a", memberId := "m", createdAt := 0, expiresAt := 10 }] "b").2.2.1
      (by decide)

/-! ## `getElectionStatus` behaviour -/

/-- A status read on an inactive election reports the loaded fields with no
time remaining and writes nothing. -/
lemma getElectionStatus_inactive (s : ElectionStatus) (now : Nat)
    (h : (loadNorm s).isActive = false) :
    getElectionStatus s now =
      ({ isActive := false, startTime := (loadNorm s).startTime,
         endTime := (loadNorm s).endTime, timeRemaining := none }, s) := by
  simp only [getElectionStatus]
  cases hS : (loadNorm s).startTime with
  | none => simp [h, hS]
  | some t => simp [h, hS]

/-- A status read on an active election whose duration has elapsed persists
the auto-closed status and reports `0h 0m`. -/
lemma getElectionStatus_elapsed (s : ElectionStatus) (now t : Nat)
    (hA : (loadNorm s).isActive = true)
    (hS : (loadNorm s).startTime = some t)
    (hEl : t + (loadNorm s).duration ≤ now) :
    getElectionStatus s now =
      ({ isActive := false, startTime := some t, endTime := some now,
         timeRemaining := some (0, 0) },
       { loadNorm s with isActive := false, endTime := some now }) := by
  simp only [getElectionStatus, hS, hA, if_true]
  rw [if_pos hEl]

/-- A status read on an active election with time left reports the
floor-divided hours and minutes remaining and writes nothing. -/
lemma getElectionStatus_running (s : ElectionStatus) (now t : Nat)
    (hA : (loadNorm s).isActive = true)
    (hS : (loadNorm s).startTime = some t)
    (hLt : now < t + (loadNorm s).duration) :
    getElectionStatus s now =
      ({ isActive := true, startTime := some t, endTime := (loadNorm s).endTime,
         timeRemaining := some ((t + (loadNorm s).duration - now) / (60 * 60 * 1000),
           ((t + (loadNorm s).duration - now) % (60 * 60 * 1000)) / (60 * 1000)) }, s) := by
  simp only [getElectionStatus, hS, hA, if_true]
  rw [if_neg (by omega)]

/-- C7: Lazy auto-close — a status read on an active election whose start
time plus duration is at or before `now` flips `isActive` to false, sets
`endTime := now`, persists that status, and reports zero time remaining;
a read strictly before that instant leaves the stored state untouched and
reports the floor-divided hours and minutes remaining. -/
theorem status_read_auto_close (s : ElectionStatus) (now t : Nat)
    (hA : (loadNorm s).isActive = true)
    (hS : (loadNorm s).startTime = some t) :
    (t + (loadNorm s).duration ≤ now →
      getElectionStatus s now =
        ({ isActive := false, startTime := some t, endTime := some now,
           timeRemaining := some (0, 0) },
         { loadNorm s with isActive := false, endTime := some now })) ∧
    (now < t + (loadNorm s).duration →
      getElectionStatus s now =
        ({ isActive := true, startTime := some t, endTime := (loadNorm s).endTime,
           timeRemaining := some ((t + (loadNorm s).duration - now) / (60 * 60 * 1000),
             ((t + (loadNorm s).duration - now) % (60 * 60 * 1000)) / (60 * 1000)) }, s)) :=
  ⟨getElectionStatus_elapsed s now t hA hS, getElectionStatus_running s now t hA hS⟩

/-- Closed witness for `status_read_auto_close`: duration 1000 ms, a read
at 1011 ≥ 10 + 1000 auto-closes; a read at 100 with 2h4m-odd left reports
`2h 4m`. -/
theorem status_read_auto_close_witness :
    getElectionStatus { isActive := true, startTime := some 10, endTime := none, duration := 1000 }
        1011
      = ({ isActive := false, startTime := some 10, endTime := some 1011,
           timeRemaining := some (0, 0) },
         { isActive := false, startTime := some 10, endTime := some 1011, duration := 1000 }) ∧
    getElectionStatus { isActive := true, startTime := some 1, endTime := none, duration := 7500000 }
        100
      = ({ isActive := true, startTime := some 1, endTime := none,
           timeRemaining := some (2, 4) },
         { isActive := true, startTime := some 1, endTime := none, duration := 7500000 }) := by
  refine ⟨?_, ?_⟩
  · rw [(status_read_auto_close
      { isActive := true, startTime := some 10, endTime := none, duration := 1000 }
      1011 10 rfl rfl).1 (by decide)]
    decide
  · rw [(status_read_auto_close
      { isActive := true, startTime := some 1, endTime := none, duration := 7500000 }
      100 1 rfl rfl).2 (by decide)]
    decide

/-! ## The submit pipeline's election-active gate -/

/-- C2: Election-active gate on vote submission.  (a) When the stored
status is not active (NotStarted or Ended), the submit pipeline rejects
with the election-not-active error and appends no vote.  (b) When the
status is still flagged active but its duration has elapsed by `now`, the
status re-check at submission time auto-closes the election and the
pipeline likewise rejects with the election-not-active error.  (c) A
submission can succeed only while the election is genuinely active: the
flag is set and the configured duration has not elapsed. -/
theorem submit_election_active_gate (st : VotingState) (m : String)
    (choices : List (String × String)) (now : Nat) (rand : String) :
    ((loadNorm st.status).isActive = false →
      (submitRoute st m choices now rand).1 = .electionNotActive ∧
      (submitRoute st m choices now rand).2.votes = st.votes) ∧
    (∀ t, (loadNorm st.status).isActive = true →
      (loadNorm st.status).startTime = some t →
      t + (loadNorm st.status).duration ≤ now →
      (submitRoute st m choices now rand).1 = .electionNotActive ∧
      (submitRoute st m choices now rand).2.status.isActive = false ∧
      (submitRoute st m choices now rand).2.status.endTime = some now ∧
      (submitRoute st m choices now rand).2.votes = st.votes) ∧
    (∀ vid, (submitRoute st m choices now rand).1 = .service (.success vid) →
      (loadNorm st.status).isActive = true ∧
      ∀ t, (loadNorm st.status).startTime = some t →
        now < t + (loadNorm st.status).duration) := by
  refine ⟨?_, ?_, ?_⟩
  · intro h
    simp [submitRoute, getElectionStatus_inactive st.status now h]
  · intro t hA hS hEl
    simp [submitRoute, getElectionStatus_elapsed st.status now t hA hS hEl]
  · intro vid hsucc
    by_cases hA : (loadNorm st.status).isActive = true
    · refine ⟨hA, ?_⟩
      intro t hS
      by_contra hge
      rw [submitRoute] at hsucc
      rw [getElectionStatus_elapsed st.status now t hA hS (by omega)] at hsucc
      simp at hsucc
    · rw [submitRoute] at hsucc
      rw [getElectionStatus_inactive st.status now (by simpa using hA)] at hsucc
      simp at hsucc

/-- Closed witness for `submit_election_active_gate`: a not-started
election rejects a submission; a genuinely successful submission implies
the active-window condition. -/
theorem submit_election_active_gate_witness :
    (submitRoute
        { status := { isActive := false, startTime := none, endTime := none, duration := 1000 },
          positions := [{ id := "p1", name := "P", isActive := true }],
          candidates := [{ id := "c1", name := "C", positionId := "p1", isActive := true }],
          votes := [] } "m1" [("p1", "c1")] 5 "r").1 = .electionNotActive ∧
    (let s : ElectionStatus :=
      { isActive := true, startTime := some 1, endTime := none, duration := 1000 }
     (loadNorm s).isActive = true ∧
      ∀ t, (loadNorm s).startTime = some t → (5 : Nat) < t + (loadNorm s).duration) := by
  refine ⟨?_, ?_⟩
  · exact ((submit_election_active_gate
      { status := { isActive := false, startTime := none, endTime := none, duration := 1000 },
        positions := [{ id := "p1", name := "P", isActive := true }],
        candidates := [{ id := "c1", name := "C", positionId := "p1", isActive := true }],
        votes := [] } "m1" [("p1", "c1")] 5 "r").1 rfl).1
  · exact (submit_election_active_gate
      { status := { isActive := true, startTime := some 1, endTime := none, duration := 1000 },
        positions := [{ id := "p1", name := "P", isActive := true }],
        candidates := [{ id := "c1", name := "C", positionId := "p1", isActive := true }],
        votes := [] } "m1" [("p1", "c1")] 5 "r").2.2 (mkVoteId 5 "r") (by decide)

/-! ## Tally bookkeeping lemmas -/

/-- Appending one vote bumps a candidate's tally exactly when that vote's
choice for the position is the candidate's (nonempty) id. -/
lemma tallyFor_append (votes : List Vote) (nv : Vote) (pid cid : String)
    (hcid : cid ≠ "") :
    tallyFor (votes ++ [nv]) pid cid =
      tallyFor votes pid cid + (if lookupChoice nv.votes pid = some cid then 1 else 0) := by
  simp only [tallyFor, if_neg hcid, List.filter_append, List.length_append]
  congr 1
  by_cases h : lookupChoice nv.votes pid = some cid
  · simp [h]
  · simp [h]

/-- A vote with an empty choice map contributes to no tally. -/
lemma tallyFor_append_emptyVote (votes : List Vote) (i m : String) (ts : Nat)
    (pid cid : String) :
    tallyFor (votes ++ [{ id := i, memberId := m, timestamp := ts, votes := [] }]) pid cid =
      tallyFor votes pid cid := by
  by_cases hcid : cid = ""
  · simp [tallyFor, hcid]
  · rw [tallyFor_append votes _ pid cid hcid]
    simp [lookupChoice]

/-- `getResults` depends on the votes only through the per-position,
per-candidate tallies. -/
lemma getResults_congr (st st' : VotingState)
    (hs : st'.status = st.status) (hp : st'.positions = st.positions)
    (hc : st'.candidates = st.candidates)
    (ht : ∀ pid cid, tallyFor st'.votes pid cid = tallyFor st.votes pid cid) :
    getResults st' = getResults st := by
  unfold getResults
  rw [hs, hp, hc]
  simp only [ht]

/-! ## Empty-choices submission -/

/-- C10: at the service layer, `submitVote` with an empty choices map by a
not-yet-voted member during an active election succeeds (both validation
loops are vacuous), appends a vote record with an empty position map, and
that record counts toward the member's one-vote quota (a later submission
fails with `alreadyVoted` carrying its id) and toward the total-votes
count, while every tally — in fact the whole `getResults` output — is
unchanged. -/
theorem submitVote_empty_choices (st : VotingState) (m : String) (now : Nat) (rand : String)
    (choices2 : List (String × String)) (now2 : Nat) (rand2 : String)
    (hA : (loadNorm st.status).isActive = true)
    (hN : findVoteByMember st.votes m = none) :
    (submitVote st m [] now rand).1 = .success (mkVoteId now rand) ∧
    (submitVote st m [] now rand).2.votes =
      st.votes ++ [{ id := mkVoteId now rand, memberId := m, timestamp := now, votes := [] }] ∧
    (submitVote st m [] now rand).2.votes.length = st.votes.length + 1 ∧
    getResults (submitVote st m [] now rand).2 = getResults st ∧
    (submitVote (submitVote st m [] now rand).2 m choices2 now2 rand2).1
      = .alreadyVoted (mkVoteId now rand) := by
  have hrun : submitVote st m [] now rand =
      (.success (mkVoteId now rand),
        { st with votes := st.votes ++
            [{ id := mkVoteId now rand, memberId := m, timestamp := now, votes := [] }] }) := by
    simp [submitVote, hA, hN]
  refine ⟨by rw [hrun], by rw [hrun], by rw [hrun]; simp, ?_, ?_⟩
  · rw [hrun]
    exact getResults_congr st
      { st with votes := st.votes ++
          [{ id := mkVoteId now rand, memberId := m, timestamp := now, votes := [] }] }
      rfl rfl rfl
      (fun pid cid => tallyFor_append_emptyVote st.votes (mkVoteId now rand) m now pid cid)
  · rw [hrun]
    have hfind : findVoteByMember
        (st.votes ++ [{ id := mkVoteId now rand, memberId := m, timestamp := now, votes := [] }]) m
        = some { id := mkVoteId now rand, memberId := m, timestamp := now, votes := [] } := by
      unfold findVoteByMember at hN ⊢
      rw [List.find?_append, hN]
      simp
    rw [submitVote_alreadyVoted _ m choices2 now2 rand2 _ (by simpa using hA) hfind]

/-- Closed witness for `submitVote_empty_choices`. -/
theorem submitVote_empty_choices_witness :
    (submitVote
        { status := { isActive := true, startTime := some 1, endTime := none, duration := 1000 },
          positions := [{ id := "p1", name := "P", isActive := true }],
          candidates := [{ id := "c1", name := "C", positionId := "p1", isActive := true }],
          votes := [] } "m1" [] 5 "r").1 = .success (mkVoteId 5 "r") ∧
    (submitVote
        { status := { isActive := true, startTime := some 1, endTime := none, duration := 1000 },
          positions := [{ id := "p1", name := "P", isActive := true }],
          candidates := [{ id := "c1", name := "C", positionId := "p1", isActive := true }],
          votes := [] } "m1" [] 5 "r").2.votes.length = 0 + 1 := by
  have h := submitVote_empty_choices
    { status := { isActive := true, startTime := some 1, endTime := none, duration := 1000 },
      positions := [{ id := "p1", name := "P", isActive := true }],
      candidates := [{ id := "c1", name := "C", positionId := "p1", isActive := true }],
      votes := [] } "m1" 5 "r" [] 6 "r2" rfl rfl
  exact ⟨h.1, h.2.2.1⟩

/-! ## Winner computation -/

/-- Maximum tally among candidate entries (0 when there are none). -/
def listMaxVotes (l : List CandidateResult) : Nat :=
  l.foldl (fun a c => max a c.votes) 0

/-- Ids of the entries holding exactly `v` votes, in order. -/
def winnersOf (l : List CandidateResult) (v : Nat) : List String :=
  (l.filter (fun c => c.votes = v)).map (fun c => c.id)

lemma foldl_max_init (l : List CandidateResult) (a : Nat) :
    l.foldl (fun x c => max x c.votes) a = max a (listMaxVotes l) := by
  induction l generalizing a with
  | nil => simp [listMaxVotes]
  | cons c l ih =>
    rw [List.foldl_cons, ih]
    have h : listMaxVotes (c :: l) = max c.votes (listMaxVotes l) := by
      rw [listMaxVotes, List.foldl_cons, ih, Nat.zero_max]
    rw [h, Nat.max_assoc]

lemma listMaxVotes_cons (c : CandidateResult) (l : List CandidateResult) :
    listMaxVotes (c :: l) = max c.votes (listMaxVotes l) := by
  rw [listMaxVotes, List.foldl_cons, foldl_max_init, Nat.zero_max]

lemma le_listMaxVotes {l : List CandidateResult} {c : CandidateResult} (h : c ∈ l) :
    c.votes ≤ listMaxVotes l := by
  induction l with
  | nil => cases h
  | cons d l ih =>
    rw [listMaxVotes_cons]
    rcases List.mem_cons.mp h with rfl | h'
    · exact Nat.le_max_left _ _
    · exact le_trans (ih h') (Nat.le_max_right _ _)

lemma listMaxVotes_attained (l : List CandidateResult) :
    listMaxVotes l = 0 ∨ ∃ c ∈ l, c.votes = listMaxVotes l := by
  induction l with
  | nil => exact Or.inl rfl
  | cons d l ih =>
    rw [listMaxVotes_cons]
    rcases Nat.le_total d.votes (listMaxVotes l) with h | h
    · rw [Nat.max_eq_right h]
      rcases ih with h0 | ⟨c, hc, hv⟩
      · exact Or.inl h0
      · exact Or.inr ⟨c, List.mem_cons_of_mem _ hc, hv⟩
    · rw [Nat.max_eq_left h]
      exact Or.inr ⟨d, List.mem_cons_self _ _, rfl⟩

lemma winnersOf_cons (c : CandidateResult) (l : List CandidateResult) (v : Nat) :
    winnersOf (c :: l) v = (if c.votes = v then [c.id] else []) ++ winnersOf l v := by
  simp only [winnersOf, List.filter_cons]
  split
  · next h =>
    rw [if_pos (by simpa using h)]
    simp
  · next h =>
    rw [if_neg (by simpa using h)]
    simp

/-- Full characterisation of the winner scan fold from any accumulator:
a new strict maximum in the tail resets the winner list to the tail's
maximal entries; otherwise the accumulated winners are extended by the
tail's entries matching the running maximum (none when it is 0). -/
lemma foldl_winnerScanStep (l : List CandidateResult) (m : Nat) (w : List String) :
    l.foldl winnerScanStep (m, w) =
      if m < listMaxVotes l then (listMaxVotes l, winnersOf l (listMaxVotes l))
      else (m, if 0 < m then w ++ winnersOf l m else w) := by
  induction l generalizing m w with
  | nil =>
    simp [listMaxVotes, winnersOf]
  | cons c l ih =>
    rw [List.foldl_cons, listMaxVotes_cons]
    by_cases h1 : m < c.votes
    · have hstep : winnerScanStep (m, w) c = (c.votes, [c.id]) := by
        simp [winnerScanStep, h1]
      rw [hstep, ih]
      by_cases h2 : c.votes < listMaxVotes l
      · rw [if_pos h2, if_pos (by omega : m < max c.votes (listMaxVotes l))]
        have hM : max c.votes (listMaxVotes l) = listMaxVotes l := Nat.max_eq_right (by omega)
        rw [hM, winnersOf_cons, if_neg (by omega : ¬ c.votes = listMaxVotes l)]
        simp
      · rw [if_neg h2, if_pos (by omega : 0 < c.votes),
          if_pos (by omega : m < max c.votes (listMaxVotes l))]
        have hM : max c.votes (listMaxVotes l) = c.votes := Nat.max_eq_left (by omega)
        rw [hM, winnersOf_cons, if_pos rfl]
    · by_cases h2 : c.votes = m ∧ 0 < m
      · obtain ⟨hcm, hm⟩ := h2
        have hstep : winnerScanStep (m, w) c = (m, w ++ [c.id]) := by
          simp only [winnerScanStep]
          rw [if_neg h1, if_pos ⟨hcm, hm⟩]
        rw [hstep, ih]
        by_cases h3 : m < listMaxVotes l
        · rw [if_pos h3, if_pos (by omega : m < max c.votes (listMaxVotes l))]
          have hM : max c.votes (listMaxVotes l) = listMaxVotes l := Nat.max_eq_right (by omega)
          rw [hM, winnersOf_cons, if_neg (by omega : ¬ c.votes = listMaxVotes l)]
          simp
        · rw [if_neg h3, if_pos hm, if_neg (by omega : ¬ m < max c.votes (listMaxVotes l)),
            if_pos hm, winnersOf_cons, if_pos hcm, List.append_assoc]
      · have hstep : winnerScanStep (m, w) c = (m, w) := by
          simp only [winnerScanStep]
          rw [if_neg h1, if_neg h2]
        rw [hstep, ih]
        by_cases h3 : m < listMaxVotes l
        · rw [if_pos h3, if_pos (by omega : m < max c.votes (listMaxVotes l))]
          have hM : max c.votes (listMaxVotes l) = listMaxVotes l := Nat.max_eq_right (by omega)
          rw [hM, winnersOf_cons, if_neg (by omega : ¬ c.votes = listMaxVotes l)]
          simp
        · rw [if_neg h3, if_neg (by omega : ¬ m < max c.votes (listMaxVotes l))]
          by_cases hm : 0 < m
          · rw [if_pos hm, if_pos hm, winnersOf_cons, if_neg (by omega : ¬ c.votes = m)]
            simp
          · rw [if_neg hm, if_neg hm]

/-- The winner scan returns the maximum tally and, when it is positive,
exactly the ids of the entries attaining it. -/
lemma winnerScan_eq (l : List CandidateResult) :
    winnerScan l = (listMaxVotes l,
      if 0 < listMaxVotes l then winnersOf l (listMaxVotes l) else []) := by
  rw [winnerScan, foldl_winnerScanStep]
  by_cases h : 0 < listMaxVotes l
  · rw [if_pos h, if_pos h]
  · rw [if_neg (by omega), if_neg h]
    have h0 : listMaxVotes l = 0 := by omega
    rw [h0]
    simp

/-- Marking winners does not change the entry ids. -/
lemma markWinners_map_id (l : List CandidateResult) :
    (markWinners l).map (fun c => c.id) = l.map (fun c => c.id) := by
  simp only [markWinners, List.map_map]
  apply List.map_congr_left
  intro c _
  show (if (winnerScan l).2.contains c.id then { c with isWinner := true } else c).id = c.id
  split
  · rfl
  · rfl

/-- Unfolding membership in `markWinners`. -/
lemma mem_markWinners {l : List CandidateResult} {x : CandidateResult}
    (hx : x ∈ markWinners l) :
    ∃ y, y ∈ l ∧
      x = (if (winnerScan l).2.contains y.id then { y with isWinner := true } else y) := by
  simp only [markWinners, List.mem_map] at hx
  obtain ⟨y, hy, hxy⟩ := hx
  exact ⟨y, hy, hxy.symm⟩

/-- Membership in the list of maximal entries' ids. -/
lemma mem_winnersOf {l : List CandidateResult} {v : Nat} {i : String} :
    i ∈ winnersOf l v ↔ ∃ c ∈ l, c.votes = v ∧ c.id = i := by
  simp only [winnersOf, List.mem_map, List.mem_filter, decide_eq_true_eq]
  constructor
  · rintro ⟨c, ⟨hc, hv⟩, hi⟩
    exact ⟨c, hc, hv, hi⟩
  · rintro ⟨c, hc, hv, hi⟩
    exact ⟨c, ⟨hc, hv⟩, hi⟩

/-- Core characterisation: after the marking pass over entries that start
unmarked and have pairwise distinct ids, an entry is marked winner exactly
when its tally is positive and no entry beats it. -/
lemma markWinners_isWinner_iff (cl : List CandidateResult)
    (h0 : ∀ c ∈ cl, c.isWinner = false)
    (hnd : (cl.map (fun c => c.id)).Nodup)
    (cr : CandidateResult) (hcr : cr ∈ markWinners cl) :
    cr.isWinner = true ↔
      (0 < cr.votes ∧ ∀ cr' ∈ markWinners cl, cr'.votes ≤ cr.votes) := by
  obtain ⟨c0, hc0, hcr_eq⟩ := mem_markWinners hcr
  have hid : cr.id = c0.id := by rw [hcr_eq]; split <;> rfl
  have hvotes : cr.votes = c0.votes := by rw [hcr_eq]; split <;> rfl
  have hwin : (winnerScan cl).2 =
      if 0 < listMaxVotes cl then winnersOf cl (listMaxVotes cl) else [] := by
    rw [winnerScan_eq]
  have hcontains : ((winnerScan cl).2.contains c0.id = true) ↔
      (0 < listMaxVotes cl ∧ c0.votes = listMaxVotes cl) := by
    rw [hwin]
    by_cases hMpos : 0 < listMaxVotes cl
    · rw [if_pos hMpos, List.elem_iff, mem_winnersOf]
      constructor
      · rintro ⟨c', hc', hv', hi'⟩
        have hcc : c' = c0 := List.inj_on_of_nodup_map hnd hc' hc0 hi'
        rw [hcc] at hv'
        exact ⟨hMpos, hv'⟩
      · rintro ⟨-, hv⟩
        exact ⟨c0, hc0, hv, rfl⟩
    · rw [if_neg hMpos]
      constructor
      · intro h
        simp at h
      · rintro ⟨h, -⟩
        exact absurd h hMpos
  have hwin_iff : cr.isWinner = true ↔ (winnerScan cl).2.contains c0.id = true := by
    rw [hcr_eq]
    by_cases h : (winnerScan cl).2.contains c0.id = true
    · rw [if_pos h]
      exact iff_of_true rfl h
    · rw [if_neg h]
      rw [h0 c0 hc0]
      exact iff_of_false (by simp) h
  rw [hwin_iff, hcontains, hvotes]
  constructor
  · rintro ⟨hMpos, hveq⟩
    refine ⟨by omega, ?_⟩
    intro cr' hcr'
    obtain ⟨c1, hc1, hcr1⟩ := mem_markWinners hcr'
    have hv1 : cr'.votes = c1.votes := by rw [hcr1]; split <;> rfl
    rw [hv1, hveq]
    exact le_listMaxVotes hc1
  · rintro ⟨hpos, hub⟩
    have hle : c0.votes ≤ listMaxVotes cl := le_listMaxVotes hc0
    have hMpos : 0 < listMaxVotes cl := by omega
    rcases listMaxVotes_attained cl with h0' | ⟨cm, hcm, hcmv⟩
    · omega
    · have hmem : (if (winnerScan cl).2.contains cm.id then { cm with isWinner := true }
          else cm) ∈ markWinners cl := by
        simp only [markWinners, List.mem_map]
        exact ⟨cm, hcm, rfl⟩
      have hv' : (if (winnerScan cl).2.contains cm.id then { cm with isWinner := true }
          else cm).votes = cm.votes := by split <;> rfl
      have hcb := hub _ hmem
      rw [hv'] at hcb
      exact ⟨hMpos, by omega⟩

/-- On an ended election, `getResults` runs the marking pass on every
active position's counted candidate entries. -/
lemma getResults_ended (st : VotingState)
    (hI : (loadNorm st.status).isActive = false)
    (hE : (loadNorm st.status).endTime.isSome = true) :
    getResults st = (st.positions.filter (fun p => p.isActive)).map (fun p =>
      { id := p.id, name := p.name,
        candidates := markWinners
          ((st.candidates.filter (fun c => c.positionId = p.id && c.isActive)).map (fun c =>
            { id := c.id, name := c.name, votes := tallyFor st.votes p.id c.id,
              isWinner := false })) }) := by
  unfold getResults
  simp [hI, hE]

/-- C3: Tie-aware winners — once the election has ended (`isActive` false
with `endTime` set), every position entry of `getResults` with distinct
candidate ids marks a candidate as winner exactly when its tally is
positive and no candidate of that position has a strictly larger tally:
all candidates tied at a positive maximum are winners, candidates below
the maximum are not, and a position with zero cast votes has no winner. -/
theorem ended_results_mark_max_tally_winners (st : VotingState)
    (hI : (loadNorm st.status).isActive = false)
    (hE : (loadNorm st.status).endTime.isSome = true) :
    ∀ pr ∈ getResults st, (pr.candidates.map (fun c => c.id)).Nodup →
      ∀ cr ∈ pr.candidates,
        (cr.isWinner = true ↔
          (0 < cr.votes ∧ ∀ cr' ∈ pr.candidates, cr'.votes ≤ cr.votes)) := by
  intro pr hpr hnd cr hcr
  rw [getResults_ended st hI hE, List.mem_map] at hpr
  obtain ⟨p, hp, hpr⟩ := hpr
  subst hpr
  rw [markWinners_map_id] at hnd
  refine markWinners_isWinner_iff _ ?_ hnd cr hcr
  intro c hc
  rw [List.mem_map] at hc
  obtain ⟨c', -, hc'⟩ := hc
  rw [← hc']

/-- Closed witness for `ended_results_mark_max_tally_winners`: the spec's
tie example — two candidates with 3 votes each, a third with 2, election
ended; the tally-3 entry is marked winner. -/
theorem ended_results_mark_max_tally_winners_witness :
    ((CandidateResult.mk "c1" "A" 3 true).isWinner = true
      ↔ (0 < (CandidateResult.mk "c1" "A" 3 true).votes ∧
        ∀ cr' ∈ (PositionResult.mk "p1" "P"
            [CandidateResult.mk "c1" "A" 3 true, CandidateResult.mk "c2" "B" 3 true,
             CandidateResult.mk "c3" "C" 2 false]).candidates,
          cr'.votes ≤ (CandidateResult.mk "c1" "A" 3 true).votes)) :=
  ended_results_mark_max_tally_winners
    { status := { isActive := false, startTime := some 1, endTime := some 5000, duration := 1000 },
      positions := [{ id := "p1", name := "P", isActive := true }],
      candidates := [{ id := "c1", name := "A", positionId := "p1", isActive := true },
                     { id := "c2", name := "B", positionId := "p1", isActive := true },
                     { id := "c3", name := "C", positionId := "p1", isActive := true }],
      votes := [{ id := "v1", memberId := "m1", timestamp := 1, votes := [("p1", "c1")] },
                { id := "v2", memberId := "m2", timestamp := 1, votes := [("p1", "c1")] },
                { id := "v3", memberId := "m3", timestamp := 1, votes := [("p1", "c1")] },
                { id := "v4", memberId := "m4", timestamp := 1, votes := [("p1", "c2")] },
                { id := "v5", memberId := "m5", timestamp := 1, votes := [("p1", "c2")] },
                { id := "v6", memberId := "m6", timestamp := 1, votes := [("p1", "c2")] },
                { id := "v7", memberId := "m7", timestamp := 1, votes := [("p1", "c3")] },
                { id := "v8", memberId := "m8", timestamp := 1, votes := [("p1", "c3")] }] }
    rfl rfl
    { id := "p1", name := "P",
      candidates := [{ id := "c1", name := "A", votes := 3, isWinner := true },
                     { id := "c2", name := "B", votes := 3, isWinner := true },
                     { id := "c3", name := "C", votes := 2, isWinner := false }] }
    (by decide) (by decide)
    { id := "c1", name := "A", votes := 3, isWinner := true }
    (by decide)

/-! ## Submit/results round trip -/

/-- Inversion of a successful `submitVote`: the election was active, the
member had not voted, every chosen candidate is an active candidate of the
chosen position, and the state change is exactly the appended record. -/
lemma submitVote_success_inv (st : VotingState) (m : String)
    (choices : List (String × String)) (now : Nat) (rand : String) (vid : String)
    (h : (submitVote st m choices now rand).1 = .success vid) :
    (loadNorm st.status).isActive = true ∧
    findVoteByMember st.votes m = none ∧
    (∀ pc ∈ choices, ∃ c ∈ st.candidates,
        c.id = pc.2 ∧ c.positionId = pc.1 ∧ c.isActive = true) ∧
    (submitVote st m choices now rand).2 =
      { st with votes := st.votes ++
          [{ id := mkVoteId now rand, memberId := m, timestamp := now, votes := choices }] } := by
  revert h
  simp only [submitVote]
  split
  · intro h
    simp at h
  · next h1 =>
    split
    · intro h
      simp at h
    · next hfind =>
      split
      · intro h
        simp at h
      · split
        · intro h
          simp at h
        · next hcand =>
          intro _
          refine ⟨by simpa using h1, hfind, ?_, rfl⟩
          intro pc hpc
          have hns := List.find?_eq_none.mp hcand pc hpc
          cases ho : st.candidates.find? (fun c =>
              c.id = pc.2 && c.positionId = pc.1 && c.isActive) with
          | none =>
            rw [ho] at hns
            exact absurd rfl hns
          | some c =>
            have hmem := List.mem_of_find?_eq_some ho
            have hpred := List.find?_some ho
            simp only [Bool.and_eq_true, decide_eq_true_eq] at hpred
            exact ⟨c, hmem, hpred.1.1, hpred.1.2, hpred.2⟩

/-- C9: Submit/results round trip — after a successful `submitVote`,
`getResults` shows, for every active position and candidate entry, the old
tally plus one exactly when the submitted choices pick that candidate for
that position, and the old tally unchanged otherwise; moreover every
submitted choice named an active candidate of the chosen position. -/
theorem submit_results_round_trip (st : VotingState) (m : String)
    (choices : List (String × String)) (now : Nat) (rand : String)
    (hids : ∀ c ∈ st.candidates, c.id ≠ "")
    (hsucc : (submitVote st m choices now rand).1 = .success (mkVoteId now rand)) :
    getResults (submitVote st m choices now rand).2 =
      (getResults st).map (fun pr =>
        { pr with candidates := pr.candidates.map (fun cr =>
            { cr with votes := cr.votes +
                (if lookupChoice choices pr.id = some cr.id then 1 else 0) }) }) ∧
    (∀ pc ∈ choices, ∃ c ∈ st.candidates,
        c.id = pc.2 ∧ c.positionId = pc.1 ∧ c.isActive = true) := by
  obtain ⟨hA, hN, hvalid, hst⟩ := submitVote_success_inv st m choices now rand _ hsucc
  refine ⟨?_, hvalid⟩
  rw [hst]
  have hcond : (!(loadNorm st.status).isActive &&
      ((loadNorm st.status).endTime.isSome : Bool)) = false := by
    rw [hA]
    rfl
  simp only [getResults]
  rw [List.map_map]
  apply List.map_congr_left
  intro p _
  simp only [Function.comp, hcond, Bool.false_eq_true, if_false]
  congr 1
  rw [List.map_map]
  apply List.map_congr_left
  intro c hc
  have hcid : c.id ≠ "" := hids c (List.mem_of_mem_filter hc)
  simp only [Function.comp]
  rw [tallyFor_append st.votes
    { id := mkVoteId now rand, memberId := m, timestamp := now, votes := choices }
    p.id c.id hcid]

/-- Closed witness for `submit_results_round_trip`: one position, two
candidates, a fresh vote for the first. -/
theorem submit_results_round_trip_witness :
    (getResults (submitVote
        (VotingState.mk (ElectionStatus.mk true (some 1) none 1000)
          [Position.mk "p1" "P" true]
          [Candidate.mk "c1" "A" "p1" true, Candidate.mk "c2" "B" "p1" true] [])
        "m1" [("p1", "c1")] 5 "r").2 =
      (getResults
        (VotingState.mk (ElectionStatus.mk true (some 1) none 1000)
          [Position.mk "p1" "P" true]
          [Candidate.mk "c1" "A" "p1" true, Candidate.mk "c2" "B" "p1" true] [])).map (fun pr =>
        { pr with candidates := pr.candidates.map (fun cr =>
            { cr with votes := cr.votes +
                (if lookupChoice [("p1", "c1")] pr.id = some cr.id then 1 else 0) }) })) ∧
    (∀ pc ∈ [("p1", "c1")], ∃ c ∈
        [Candidate.mk "c1" "A" "p1" true, Candidate.mk "c2" "B" "p1" true],
        c.id = pc.2 ∧ c.positionId = pc.1 ∧ c.isActive = true) :=
  submit_results_round_trip
    (VotingState.mk (ElectionStatus.mk true (some 1) none 1000)
      [Position.mk "p1" "P" true]
      [Candidate.mk "c1" "A" "p1" true, Candidate.mk "c2" "B" "p1" true] [])
    "m1" [("p1", "c1")] 5 "r" (by decide) (by decide)

end Acm
